import Mathlib

/-!
Shallow embedding of the version-control subsystem of the vps-manager
repository (src/vps_manager/version_control.py), together with theorems
settling the frozen claims about it.

Modelling conventions:
* Python dicts keyed by strings are modelled as association lists
  `List (String × _)`; dict semantics (first-insertion key order, last
  value wins) are captured by the helpers `dictKeys` and `dictGet`.
* The on-disk store is a record of optional file contents (`none` means
  the file is absent).  `json.load` on an absent or unreadable file is
  caught by the source and turned into a default value, which is modelled
  with `Option.getD`.
* Wall-clock readings (`datetime.now()` and `.isoformat()`) and the SHA-256
  hash function are inputs of the model (`nowHash`, `nowIso`, `H`), since
  the code only ever treats them as opaque strings.
* The source wraps every file write in `try/except`; writes of
  `commits.json` and `branches.json` swallow the exception
  (`_save_commits`, `_save_branches` log and return), while the writes of
  `commits/<hash>.json` and the tar archive raise into the outer handler
  of `commit`.  A `FailFlags` record selects which of these I/O actions
  fail in a given run; a failing swallowed write leaves the file content
  unchanged.
* The live system state touched by checkout (domains, NGINX files,
  reload) lives outside the store; its restore/validation steps are
  modelled only by their success/failure outcome (`CheckoutOracles`),
  which is all the claims refer to.
-/

/-- Diff statistics, mirroring the dict built by
`VersionControl._calculate_diff`. -/
structure Stats where
  domains_added : Nat
  domains_removed : Nat
  domains_modified : Nat
  configs_changed : Nat
  settings_changed : Nat
deriving DecidableEq, Repr

/-- A captured configuration state, mirroring the dict built by
`VersionControl._capture_current_state`.  The `config` and `timestamp`
fields are `Option` because the empty diff baseline used for the root
commit (`{"domains": [], "nginx_configs": {}}`) lacks those keys, and
`dict.get` then yields `None`. -/
structure Snapshot where
  domains : List (String × String)
  config : Option String
  nginx_configs : List (String × String)
  timestamp : Option String
deriving DecidableEq, Repr

/-- The `Commit` dataclass of the source. -/
structure Commit where
  hash : String
  timestamp : String
  author : String
  message : String
  description : String
  tags : List String
  parent : Option String
  files_changed : List String
  domains_snapshot : Snapshot
  config_snapshot : Option String
  stats : Stats
deriving DecidableEq, Repr

/-- The `Branch` dataclass of the source. -/
structure Branch where
  name : String
  current_commit : String
  created_at : String
  description : String
deriving DecidableEq, Repr

/-- A tag record as written to `tags/<name>.json` by `VersionControl.tag`. -/
structure TagRecord where
  name : String
  commit : String
  message : String
  created_at : String
deriving DecidableEq, Repr

/-- The persisted store: the files under `<MANAGER_DIR>/vcs`.  A `none`
field means the file is absent on disk. -/
structure StoreFS where
  commitsFile : Option (List Commit)
  branchesFile : Option (List Branch)
  headFile : Option String
  commitObjs : List (String × Commit)
  archives : List String
  tagsDir : List (String × TagRecord)
deriving DecidableEq, Repr

/-- Which internal I/O actions of a `commit` run fail.  `capture`,
`commitFile`, `archive` and `headRead` raise into the outer `except` of
`commit` — `headRead` is the HEAD-file read of `_get_current_branch`,
which has no internal handler and runs AFTER the log append;
`loadCommits`, `saveCommits`, `loadBranches` and `saveBranches` are
swallowed inside the `_load_*`/`_save_*` helpers. -/
structure FailFlags where
  capture : Bool
  commitFile : Bool
  archive : Bool
  loadCommits : Bool
  saveCommits : Bool
  loadBranches : Bool
  headRead : Bool
  saveBranches : Bool
deriving DecidableEq, Repr

/-- The run in which every I/O action succeeds. -/
def noFail : FailFlags :=
  { capture := false, commitFile := false, archive := false,
    loadCommits := false, saveCommits := false,
    loadBranches := false, headRead := false, saveBranches := false }

/-- Keys of a Python dict built from an association list: first-insertion
order, duplicates collapsed. -/
def dictKeys (l : List (String × String)) : List String :=
  (l.map Prod.fst).eraseDups

/-- Lookup in a Python dict built from an association list: the last
binding of a key wins; `none` models `dict.get` returning `None`. -/
def dictGet (l : List (String × String)) (k : String) : Option String :=
  ((l.filter (fun p => p.1 == k)).getLast?).map Prod.snd

/-- All-zero statistics. -/
def zeroStats : Stats :=
  { domains_added := 0, domains_removed := 0, domains_modified := 0,
    configs_changed := 0, settings_changed := 0 }

/-- The diff baseline used by `commit` when the commit log is empty:
the literal dict `{"domains": [], "nginx_configs": {}}` (note that it has
no `config` and no `timestamp` key). -/
def emptyBaseline : Snapshot :=
  { domains := [], config := none, nginx_configs := [], timestamp := none }

/-- `VersionControl._calculate_diff`: entity-level set comparison of the
domain dicts, per-name comparison of the NGINX config texts, and an
equality check of the settings mapping. -/
def calculateDiff (old new : Snapshot) : Stats :=
  let oldNames := dictKeys old.domains
  let newNames := dictKeys new.domains
  let added := (newNames.filter (fun n => !(oldNames.contains n))).length
  let removed := (oldNames.filter (fun n => !(newNames.contains n))).length
  let common := oldNames.filter (fun n => newNames.contains n)
  let modified :=
    (common.filter (fun n => dictGet old.domains n != dictGet new.domains n)).length
  let cfgNames := (dictKeys old.nginx_configs ++ dictKeys new.nginx_configs).eraseDups
  let cfgChanged :=
    (cfgNames.filter (fun n =>
      dictGet old.nginx_configs n != dictGet new.nginx_configs n)).length
  let settings := if old.config != new.config then 1 else 0
  { domains_added := added, domains_removed := removed,
    domains_modified := modified, configs_changed := cfgChanged,
    settings_changed := settings }

/-- Renders an association list as text; a building block of the snapshot
serialization. -/
def renderDict (l : List (String × String)) : String :=
  String.intercalate "," (l.map (fun p => p.1 ++ ":" ++ p.2))

/-- Models `json.dumps(current_state, sort_keys=True)`: a deterministic
serialization of the snapshot value (keys in sorted order:
config, domains, nginx_configs, timestamp).  The exact byte format is
irrelevant to every claim; what matters is that it is a function of the
snapshot value. -/
def serializeState (snap : Snapshot) : String :=
  "config=" ++ snap.config.getD "null" ++
  ";domains=" ++ renderDict snap.domains ++
  ";nginx_configs=" ++ renderDict snap.nginx_configs ++
  ";timestamp=" ++ snap.timestamp.getD "null"

/-- `Commit.short_hash`: the first seven characters of the hash. -/
def shortHash (c : Commit) : String :=
  c.hash.take 7

/-- The `"main"` branch record written by `_init_repository` when
`branches.json` is absent. -/
def mainBranch (now : String) : Branch :=
  { name := "main", current_commit := "", created_at := now,
    description := "Main configuration branch" }

/-- `VersionControl._init_repository`: creates the directory tree and,
only for absent files, writes an empty commit log, a single `"main"`
branch, and a HEAD file containing `"main"`.  Existing files are left
untouched. -/
def initRepository (now : String) (fs : StoreFS) : StoreFS :=
  { fs with
    commitsFile := some (fs.commitsFile.getD []),
    branchesFile := some (fs.branchesFile.getD [mainBranch now]),
    headFile := some (fs.headFile.getD "main") }

/-- Result of `VersionControl.commit`: the returned `(success, message,
commit_object)` triple, plus the resulting store. -/
structure CommitResult where
  success : Bool
  message : String
  newCommit : Option Commit
  fs : StoreFS
deriving DecidableEq, Repr

/-- Sets `current_commit` of the first branch with the given name, as the
update loop of `commit` does (`for branch in branches: ... break`). -/
def updateBranchHead (bs : List Branch) (name h : String) : List Branch :=
  match bs with
  | [] => []
  | b :: rest =>
    if b.name == name then { b with current_commit := h } :: rest
    else b :: updateBranchHead rest name h

/-- `VersionControl.commit`.  Parameters:
`H` models `hashlib.sha256(...).hexdigest()`;
`snap` is the snapshot produced by `_capture_current_state`;
`nowHash` is `str(datetime.now())` fed into the hash and `nowIso` is
`datetime.now().isoformat()` stored in the commit;
`flags` selects failing I/O actions (see `FailFlags`).
The source steps, in order: capture state, compute hash, load commits,
take the last log entry as parent, compute stats, write the
`commits/<hash>.json` object, write the tar archive, append to
`commits.json`, load the branch registry, read HEAD via
`_get_current_branch` (an unguarded read that can raise AFTER the log
append), and finally set the current branch head in `branches.json`.
Failures of `_save_commits` and `_save_branches` are swallowed by those
helpers, so the run still reports success. -/
def commitModel (H : String → String) (snap : Snapshot)
    (nowHash nowIso message description author : String)
    (tags : Option (List String)) (flags : FailFlags) (fs : StoreFS) :
    CommitResult :=
  if flags.capture then
    { success := false, message := "Failed to create commit",
      newCommit := none, fs := fs }
  else
    let stateJson := serializeState snap
    let commitHash := H (stateJson ++ nowHash)
    let commits := if flags.loadCommits then [] else fs.commitsFile.getD []
    let parentHash := (commits.getLast?).map (fun c => c.hash)
    let parentState :=
      ((commits.getLast?).map (fun c => c.domains_snapshot)).getD emptyBaseline
    let filesChanged := dictKeys snap.nginx_configs
    let stats := calculateDiff parentState snap
    let c : Commit :=
      { hash := commitHash, timestamp := nowIso, author := author,
        message := message, description := description,
        tags := tags.getD [], parent := parentHash,
        files_changed := filesChanged, domains_snapshot := snap,
        config_snapshot := snap.config, stats := stats }
    if flags.commitFile then
      { success := false, message := "Failed to create commit",
        newCommit := none, fs := fs }
    else
      let fs1 := { fs with commitObjs := fs.commitObjs ++ [(commitHash, c)] }
      if flags.archive then
        { success := false, message := "Failed to create commit",
          newCommit := none, fs := fs1 }
      else
        let fs2 := { fs1 with archives := fs1.archives ++ [commitHash] }
        let fs3 :=
          if flags.saveCommits then fs2
          else { fs2 with commitsFile := some (commits ++ [c]) }
        let branches :=
          if flags.loadBranches then [] else fs3.branchesFile.getD []
        if flags.headRead then
          { success := false, message := "Failed to create commit",
            newCommit := none, fs := fs3 }
        else
          let currentName := fs3.headFile.getD "main"
          let branches2 := updateBranchHead branches currentName commitHash
          let fs4 :=
            if flags.saveBranches then fs3
            else { fs3 with branchesFile := some branches2 }
          { success := true, message := "Commit created: " ++ shortHash c,
            newCommit := some c, fs := fs4 }

/-- The commit-reference resolution loop shared verbatim by `show`,
`checkout`, `tag` and `diff`:
`for c in commits: if c.hash.startswith(ref) or c.hash == ref: ... break`.
It yields the first commit of the log whose hash has `ref` as a
(string) prefix. -/
def resolveCommit (commits : List Commit) (ref : String) : Option Commit :=
  commits.find? (fun c => ref.data.isPrefixOf c.hash.data || c.hash == ref)

/-- The backward walk of `log(branch=...)`: iterate the reversed log,
collecting elements, and stop right after the element whose hash equals
the branch head.  If no element matches, the whole list is collected. -/
def takeUntilHash (h : String) : List Commit → List Commit
  | [] => []
  | c :: rest => if c.hash == h then [c] else c :: takeUntilHash h rest

/-- The final slice of `log`: `commits[-limit:] if limit else commits`
(a limit of `0` is falsy in Python, so no truncation happens). -/
def applyLimit (limit : Nat) (commits : List Commit) : List Commit :=
  if limit ≠ 0 then commits.drop (commits.length - limit) else commits

/-- `VersionControl.log`.  With a truthy `branch` argument naming a known
branch with a non-empty head, the reversed log is scanned for the head
hash (`takeUntilHash`) and re-reversed; then the last `limit` elements
are taken. -/
def logModel (fs : StoreFS) (limit : Nat) (branch : Option String) :
    List Commit :=
  let commits := fs.commitsFile.getD []
  let selected :=
    match branch with
    | none => commits
    | some bname =>
      if bname = "" then commits
      else
        let branches := fs.branchesFile.getD []
        match branches.find? (fun b => b.name == bname) with
        | none => commits
        | some tb =>
          if tb.current_commit ≠ "" then
            (takeUntilHash tb.current_commit commits.reverse).reverse
          else commits
  applyLimit limit selected

/-- Result of `show`: `(success, commit)`.  The human-readable diff text
built by `_generate_diff_text` is pure rendering that no claim mentions
and is omitted. -/
def showModel (fs : StoreFS) (ref : String) : Bool × Option Commit :=
  match resolveCommit (fs.commitsFile.getD []) ref with
  | none => (false, none)
  | some c => (true, some c)

/-- Appends a tag name to the first commit with the given hash, modelling
the in-place mutation `commit.tags.append(tag_name)` performed by `tag`
on the object found by the resolution loop. -/
def addTagToCommit (commits : List Commit) (h tagName : String) :
    List Commit :=
  match commits with
  | [] => []
  | c :: rest =>
    if c.hash == h then
      (if tagName ∈ c.tags then c
       else { c with tags := c.tags ++ [tagName] }) :: rest
    else c :: addTagToCommit rest h tagName

/-- Writes `tags/<name>.json`: overwrites the record of an existing tag
name, otherwise adds a new one. -/
def writeTag (tags : List (String × TagRecord)) (tr : TagRecord) :
    List (String × TagRecord) :=
  if tags.any (fun p => p.1 == tr.name) then
    tags.map (fun p => if p.1 == tr.name then (p.1, tr) else p)
  else tags ++ [(tr.name, tr)]

/-- Result of `tag` / `checkout`: `(success, message)` plus the store. -/
structure OpResult where
  success : Bool
  message : String
  fs : StoreFS
deriving DecidableEq, Repr

/-- `VersionControl.tag`: resolve the reference, append the tag name to
the resolved commit if absent, rewrite `commits.json`, and write the
`tags/<name>.json` record. -/
def tagModel (fs : StoreFS) (ref tagName msg now : String) : OpResult :=
  let commits := fs.commitsFile.getD []
  match resolveCommit commits ref with
  | none => { success := false, message := "Commit not found", fs := fs }
  | some c =>
    let commits2 := addTagToCommit commits c.hash tagName
    let fs1 := { fs with commitsFile := some commits2 }
    let tr : TagRecord :=
      { name := tagName, commit := c.hash, message := msg, created_at := now }
    let fs2 := { fs1 with tagsDir := writeTag fs1.tagsDir tr }
    { success := true,
      message := "Created tag " ++ tagName ++ " at " ++ shortHash c,
      fs := fs2 }

/-- Outcomes of the external collaborators used by `checkout`:
whether the restore step (`applyState`) raises, and whether
`manager.test_and_reload_nginx` succeeds. -/
structure CheckoutOracles where
  applyFails : Bool
  validateOK : Bool
deriving DecidableEq, Repr

/-- `VersionControl.checkout`: resolve the reference (`Commit not found`
otherwise), unconditionally record a safety commit of the current state
(its own success flag is ignored by the source), then restore the stored
snapshot to the live system and validate.  The restore and validation
touch only live state outside the store, so they are modelled by their
outcome; on their failure the store keeps whatever the safety commit
wrote, and no rollback happens. -/
def checkoutModel (H : String → String) (snapCur : Snapshot)
    (nowHash nowIso : String) (flags : FailFlags) (oc : CheckoutOracles)
    (fs : StoreFS) (ref : String) : OpResult :=
  let commits := if flags.loadCommits then [] else fs.commitsFile.getD []
  match resolveCommit commits ref with
  | none => { success := false, message := "Commit not found", fs := fs }
  | some c =>
    let r := commitModel H snapCur nowHash nowIso
      ("Auto-backup before checkout to " ++ shortHash c)
      "Automatic safety backup" "admin"
      (some ["auto-backup", "pre-checkout"]) flags fs
    if oc.applyFails then
      { success := false, message := "Failed to checkout commit", fs := r.fs }
    else if oc.validateOK = false then
      { success := false, message := "NGINX configuration test failed",
        fs := r.fs }
    else
      { success := true,
        message := "Successfully restored to commit " ++ shortHash c,
        fs := r.fs }

/-- Result of a `branch` action: `(success, message, branches_list)` plus
the store. -/
structure BranchResult where
  success : Bool
  message : String
  branches : Option (List Branch)
  fs : StoreFS
deriving DecidableEq, Repr

/-- The `action == "delete"` arm of `VersionControl.branch`, including the
shared preamble (load branches, read HEAD).  Order of the guards in the
source: falsy name, `"main"`, current branch; otherwise the branch list
is filtered by name and saved — with no existence check, so deleting an
unknown name succeeds with the list unchanged. -/
def branchDelete (fs : StoreFS) (name : String) : BranchResult :=
  let branchList := fs.branchesFile.getD []
  let currentBranch := fs.headFile.getD "main"
  if name = "" then
    { success := false, message := "Branch name required",
      branches := none, fs := fs }
  else if name = "main" then
    { success := false, message := "Cannot delete main branch",
      branches := none, fs := fs }
  else if name = currentBranch then
    { success := false, message := "Cannot delete current branch",
      branches := none, fs := fs }
  else
    let branches2 := branchList.filter (fun b => b.name != name)
    let fs1 := { fs with branchesFile := some branches2 }
    { success := true, message := "Branch " ++ name ++ " deleted",
      branches := some branches2, fs := fs1 }

/-- The `action == "switch"` arm of `VersionControl.branch`: after the
existence check, HEAD is written first (`_set_current_branch`), and only
then is the branch head checked out; a failing checkout aborts with an
error but the HEAD write is not rolled back. -/
def branchSwitch (H : String → String) (snapCur : Snapshot)
    (nowHash nowIso : String) (flags : FailFlags) (oc : CheckoutOracles)
    (fs : StoreFS) (name : String) : BranchResult :=
  let branchList := if flags.loadBranches then [] else fs.branchesFile.getD []
  if name = "" then
    { success := false, message := "Branch name required",
      branches := none, fs := fs }
  else
    match branchList.find? (fun b => b.name == name) with
    | none =>
      { success := false, message := "Branch not found",
        branches := none, fs := fs }
    | some tb =>
      let fs1 := { fs with headFile := some name }
      if tb.current_commit ≠ "" then
        let r := checkoutModel H snapCur nowHash nowIso flags oc fs1
          tb.current_commit
        if r.success = false then
          { success := false,
            message := "Failed to checkout branch: " ++ r.message,
            branches := none, fs := r.fs }
        else
          { success := true, message := "Switched to branch " ++ name,
            branches := some branchList, fs := r.fs }
      else
        { success := true, message := "Switched to branch " ++ name,
          branches := some branchList, fs := fs1 }

/-- `VersionControl.diff`: resolves the first reference (`First commit
not found` otherwise) and, when a truthy second reference is given,
resolves it as well (`Second commit not found` otherwise).  The rendered
diff text is pure formatting that no claim mentions; the model returns
the header line. -/
def diffModel (fs : StoreFS) (ref1 : String) (ref2 : Option String) :
    Bool × String :=
  let commits := fs.commitsFile.getD []
  match resolveCommit commits ref1 with
  | none => (false, "First commit not found")
  | some c1 =>
    match ref2 with
    | some r2 =>
      if r2 = "" then (true, "diff " ++ shortHash c1 ++ "..working")
      else
        match resolveCommit commits r2 with
        | none => (false, "Second commit not found")
        | some c2 =>
          (true, "diff " ++ shortHash c1 ++ ".." ++ shortHash c2)
    | none => (true, "diff " ++ shortHash c1 ++ "..working")

/-! ## Helper lemmas and concrete fixtures -/

/-- Left cancellation for string append. -/
theorem string_append_cancel_left (s t u : String) (h : s ++ t = s ++ u) :
    t = u := by
  apply String.ext
  have h2 : (s ++ t).data = (s ++ u).data := by rw [h]
  rw [String.data_append, String.data_append] at h2
  exact List.append_cancel_left h2

/-- After `updateBranchHead`, the first branch with the given name has the
new head. -/
theorem find?_updateBranchHead (bs : List Branch) (name h : String)
    (hmem : (bs.find? (fun b => b.name == name)).isSome = true) :
    ((updateBranchHead bs name h).find? (fun b => b.name == name)).map
      (fun b => b.current_commit) = some h := by
  induction bs with
  | nil => simp [List.find?] at hmem
  | cons b rest ih =>
    by_cases hb : b.name == name
    · simp [updateBranchHead, hb, List.find?_cons_of_pos]
    · rw [List.find?_cons_of_neg _ (by simpa using hb)] at hmem
      simp [updateBranchHead, hb, List.find?_cons_of_neg, ih hmem]

/-- The backward walk collects exactly the elements after the last
occurrence of the head hash, plus that element. -/
theorem takeUntilHash_eq_append (h : String) (l rest : List Commit)
    (ch : Commit) (hch : ch.hash = h) (hl : ∀ c ∈ l, c.hash ≠ h) :
    takeUntilHash h (l ++ ch :: rest) = l ++ [ch] := by
  induction l with
  | nil => simp [takeUntilHash, hch]
  | cons c cs ih =>
    have hc : (c.hash == h) = false := by
      simpa using hl c (by simp)
    simp [takeUntilHash, hc, ih (fun x hx => hl x (by simp [hx]))]

/-- `commit` never writes the HEAD file. -/
theorem commitModel_headFile (H : String → String) (snap : Snapshot)
    (nh ni m d a : String) (t : Option (List String)) (flags : FailFlags)
    (fs : StoreFS) :
    (commitModel H snap nh ni m d a t flags fs).fs.headFile = fs.headFile := by
  simp only [commitModel]
  cases flags.capture <;> cases flags.commitFile <;> cases flags.archive <;>
    cases flags.saveCommits <;> cases flags.headRead <;>
    cases flags.saveBranches <;> simp

/-- `checkout` never writes the HEAD file. -/
theorem checkoutModel_headFile (H : String → String) (snapCur : Snapshot)
    (nh ni : String) (flags : FailFlags) (oc : CheckoutOracles)
    (fs : StoreFS) (ref : String) :
    (checkoutModel H snapCur nh ni flags oc fs ref).fs.headFile = fs.headFile := by
  simp only [checkoutModel]
  cases hr : resolveCommit (if flags.loadCommits then [] else fs.commitsFile.getD []) ref
  · simp
  · cases oc.applyFails <;> cases hv : oc.validateOK <;>
      simp [hv, commitModel_headFile]

/-- With failing post-restore validation, `checkout` always reports
failure. -/
theorem checkoutModel_fail_of_validate (H : String → String)
    (snapCur : Snapshot) (nh ni : String) (flags : FailFlags)
    (oc : CheckoutOracles) (fs : StoreFS) (ref : String)
    (hval : oc.validateOK = false) :
    (checkoutModel H snapCur nh ni flags oc fs ref).success = false := by
  simp only [checkoutModel]
  cases hr : resolveCommit (if flags.loadCommits then [] else fs.commitsFile.getD []) ref
  · simp
  · cases ha : oc.applyFails <;> simp [ha, hval]

/-- A commit fixture with the given hash and default metadata. -/
def mkCommit (h : String) : Commit :=
  { hash := h, timestamp := "", author := "", message := "",
    description := "", tags := [], parent := none, files_changed := [],
    domains_snapshot := emptyBaseline, config_snapshot := none,
    stats := zeroStats }

/-- A captured snapshot with one domain. -/
def snapA : Snapshot :=
  { domains := [("a.com", "A")], config := some "cfg",
    nginx_configs := [("a.com", "server a")], timestamp := some "ts" }

/-- A freshly initialized store. -/
def fsInit : StoreFS :=
  { commitsFile := some [], branchesFile := some [mainBranch "t0"],
    headFile := some "main", commitObjs := [], archives := [],
    tagsDir := [] }

/-- A dev branch fixture whose head is the given hash. -/
def devBranchAt (h : String) : Branch :=
  { name := "dev", current_commit := h, created_at := "t1",
    description := "d" }

/-- A store with branches main and feature, main checked out. -/
def fsTwoBranches : StoreFS :=
  { commitsFile := some [],
    branchesFile := some [mainBranch "t0",
      { name := "feature", current_commit := "", created_at := "t1",
        description := "" }],
    headFile := some "main", commitObjs := [], archives := [],
    tagsDir := [] }

/-- A store with branch dev checked out. -/
def fsDevCurrent : StoreFS :=
  { commitsFile := some [],
    branchesFile := some [mainBranch "t0", devBranchAt ""],
    headFile := some "dev", commitObjs := [], archives := [],
    tagsDir := [] }

/-- A store whose log has three commits. -/
def fsLog3 : StoreFS :=
  { commitsFile := some [mkCommit "h1", mkCommit "h2", mkCommit "h3"],
    branchesFile := some [mainBranch "t0"], headFile := some "main",
    commitObjs := [], archives := [], tagsDir := [] }

/-- A store whose log has one commit. -/
def fsLog1 : StoreFS :=
  { commitsFile := some [mkCommit "h1"],
    branchesFile := some [mainBranch "t0"], headFile := some "main",
    commitObjs := [], archives := [], tagsDir := [] }

/-- Three commits in the log; branch dev points at the middle one. -/
def fsBranchLog : StoreFS :=
  { commitsFile := some [mkCommit "h1", mkCommit "h2", mkCommit "h3"],
    branchesFile := some [mainBranch "t0", devBranchAt "h2"],
    headFile := some "main", commitObjs := [], archives := [],
    tagsDir := [] }

/-- Two commits in the log; branch dev points at the first one. -/
def fsBranchLogRoot : StoreFS :=
  { commitsFile := some [mkCommit "h1", mkCommit "h2"],
    branchesFile := some [mainBranch "t0", devBranchAt "h1"],
    headFile := some "main", commitObjs := [], archives := [],
    tagsDir := [] }

/-- Two commits whose hashes share the proper first character. -/
def fsAmbiguous : StoreFS :=
  { commitsFile := some [mkCommit "ab", mkCommit "ac"],
    branchesFile := some [mainBranch "t0"], headFile := some "main",
    commitObjs := [], archives := [], tagsDir := [] }

/-! ## Claim theorems -/

/-- C8: repository initialization is idempotent; running it over an
already-initialized store discards nothing: the persisted commit log is
unchanged (so the commit count never drops), existing branches survive
(as a sublist of the result), the tag records, commit objects and
archives are untouched, and the recorded HEAD branch name is kept. -/
theorem vc_init_idempotent_no_discard (now1 now2 : String) (fs : StoreFS) :
    initRepository now2 (initRepository now1 fs) = initRepository now1 fs
    ∧ (initRepository now1 fs).commitsFile.getD [] = fs.commitsFile.getD []
    ∧ List.Sublist (fs.branchesFile.getD [])
        ((initRepository now1 fs).branchesFile.getD [])
    ∧ (initRepository now1 fs).tagsDir = fs.tagsDir
    ∧ (initRepository now1 fs).headFile.getD "main" = fs.headFile.getD "main"
    ∧ (initRepository now1 fs).commitObjs = fs.commitObjs
    ∧ (initRepository now1 fs).archives = fs.archives := by
  obtain ⟨cf, bf, hf, co, ar, td⟩ := fs
  refine ⟨?_, ?_, ?_, rfl, ?_, rfl, rfl⟩ <;>
    cases cf <;> cases bf <;> cases hf <;> simp [initRepository]

/-- C7 (amended): in every repository state whose current branch name is
non-empty, deleting "main" and deleting the current branch fail with the
Protected errors and leave the store untouched, and deleting any other
non-empty name is never blocked.  (Deleting the empty name is blocked by
the falsy-name guard, see the counterexample.) -/
theorem vc_branch_delete_protection (fs : StoreFS) (n : String)
    (hcur : fs.headFile.getD "main" ≠ "") :
    ((branchDelete fs "main").success = false
      ∧ (branchDelete fs "main").message = "Cannot delete main branch"
      ∧ (branchDelete fs "main").fs = fs)
    ∧ ((branchDelete fs (fs.headFile.getD "main")).success = false
      ∧ ((branchDelete fs (fs.headFile.getD "main")).message
            = "Cannot delete main branch"
          ∨ (branchDelete fs (fs.headFile.getD "main")).message
            = "Cannot delete current branch")
      ∧ (branchDelete fs (fs.headFile.getD "main")).fs = fs)
    ∧ (n ≠ "" → n ≠ "main" → n ≠ fs.headFile.getD "main" →
        (branchDelete fs n).success = true) := by
  refine ⟨?_, ?_, ?_⟩
  · simp [branchDelete]
  · by_cases hm : fs.headFile.getD "main" = "main"
    · rw [hm]; simp [branchDelete]
    · simp [branchDelete, hcur, hm]
  · intro h1 h2 h3
    simp [branchDelete, h1, h2, h3]

/-- C7 witness: concrete protected and unblocked deletions. -/
theorem vc_branch_delete_protection_witness :
    (branchDelete fsTwoBranches "main").success = false
    ∧ (branchDelete fsTwoBranches "feature").success = true := by
  have h := vc_branch_delete_protection fsTwoBranches "feature" (by decide)
  exact ⟨h.1.1, h.2.2 (by decide) (by decide) (by decide)⟩

/-- C7 counterexample: the empty string names neither "main" nor the
current branch, yet its deletion is blocked by the falsy-name guard,
refuting the claim that no other deletion is ever blocked. -/
theorem vc_branch_delete_empty_name_blocked :
    ¬("" = "main") ∧ ¬("" = fsTwoBranches.headFile.getD "main")
    ∧ (branchDelete fsTwoBranches "").success = false := by decide

/-- C9 (amended): deleting any non-empty name other than "main" and the
current branch reports success even when no branch of that name exists,
leaving the branch list unchanged in that case; and no delete outcome is
ever a NotFound error (every run either succeeds or fails with the
falsy-name or one of the two Protected messages). -/
theorem vc_branch_delete_missing_succeeds (fs : StoreFS) (n : String)
    (h1 : n ≠ "") (h2 : n ≠ "main") (h3 : n ≠ fs.headFile.getD "main")
    (h4 : ∀ b ∈ fs.branchesFile.getD [], b.name ≠ n) :
    (branchDelete fs n).success = true
    ∧ (branchDelete fs n).branches = some (fs.branchesFile.getD [])
    ∧ (branchDelete fs n).fs.branchesFile = some (fs.branchesFile.getD [])
    ∧ (∀ fs2 : StoreFS, ∀ m : String,
        (branchDelete fs2 m).success = true
        ∨ (branchDelete fs2 m).message = "Branch name required"
        ∨ (branchDelete fs2 m).message = "Cannot delete main branch"
        ∨ (branchDelete fs2 m).message = "Cannot delete current branch") := by
  have hfilter : (fs.branchesFile.getD []).filter (fun b => b.name != n)
      = fs.branchesFile.getD [] := by
    apply List.filter_eq_self.mpr
    intro b hb
    simpa [bne_iff_ne] using h4 b hb
  refine ⟨?_, ?_, ?_, ?_⟩
  · simp [branchDelete, h1, h2, h3]
  · simp [branchDelete, h1, h2, h3, hfilter]
  · simp [branchDelete, h1, h2, h3, hfilter]
  · intro fs2 m
    by_cases e1 : m = ""
    · simp [branchDelete, e1]
    · by_cases e2 : m = "main"
      · simp [branchDelete, e1, e2]
      · by_cases e3 : m = fs2.headFile.getD "main"
        · subst e3; simp [branchDelete, e1, e2]
        · simp [branchDelete, e1, e2, e3]

/-- C9 witness: deleting the unknown branch ghost succeeds and leaves the
single-branch registry unchanged. -/
theorem vc_branch_delete_missing_succeeds_witness :
    (branchDelete fsInit "ghost").success = true
    ∧ (branchDelete fsInit "ghost").branches = some [mainBranch "t0"] := by
  have h := vc_branch_delete_missing_succeeds fsInit "ghost"
    (by decide) (by decide) (by decide) (by decide)
  exact ⟨h.1, h.2.1⟩

/-- C9 counterexample: with dev checked out, the empty string is a name
other than "main" and other than the current branch, yet deleting it does
not report success. -/
theorem vc_branch_delete_empty_name_fails :
    ¬("" = "main") ∧ ¬("" = fsDevCurrent.headFile.getD "main")
    ∧ (branchDelete fsDevCurrent "").success = false
    ∧ (branchDelete fsDevCurrent "").message = "Branch name required" := by
  decide

/-- C6 (amended): for every N >= 1, log(limit=N) with no branch argument
returns exactly the last N elements of the full history in creation order
(the whole history when N is at least its length); for N = 0 the limit is
falsy in the source and the whole history is returned, not the empty
list. -/
theorem vc_log_limit_last_n (fs : StoreFS) (N : Nat) (hN : N ≠ 0) :
    (fs.commitsFile.getD []).take ((fs.commitsFile.getD []).length - N)
        ++ logModel fs N none = fs.commitsFile.getD []
    ∧ (logModel fs N none).length = min N (fs.commitsFile.getD []).length := by
  have hlog : logModel fs N none
      = (fs.commitsFile.getD []).drop ((fs.commitsFile.getD []).length - N) := by
    simp [logModel, applyLimit, hN]
  constructor
  · rw [hlog]; exact List.take_append_drop _ _
  · rw [hlog, List.length_drop]; omega

/-- C6 witness: on a three-commit log, log(limit=2) returns the last two
elements. -/
theorem vc_log_limit_last_n_witness :
    [mkCommit "h1"] ++ logModel fsLog3 2 none
      = [mkCommit "h1", mkCommit "h2", mkCommit "h3"]
    ∧ (logModel fsLog3 2 none).length = 2 := by
  have h := vc_log_limit_last_n fsLog3 2 (by decide)
  exact ⟨h.1, h.2⟩

/-- C6 counterexample: on a one-commit log, log(limit=0) returns the whole
history, not the empty list the claim prescribes for N = 0. -/
theorem vc_log_limit_zero_full_history :
    logModel fsLog1 0 none = [mkCommit "h1"]
    ∧ logModel fsLog1 0 none ≠ ([] : List Commit) := by decide

/-- C3 (amended): for a branch whose non-empty recorded head appears in
the global log (decomposed as pre ++ head-element :: post, with no later
occurrence of the head hash), log over that branch returns up to the last
limit elements of the SUFFIX of the log from the head element through the
tail — not the prefix up to the head. -/
theorem vc_log_branch_suffix (fs : StoreFS) (bname : String) (b : Branch)
    (pre post : List Commit) (ch : Commit) (limit : Nat)
    (hname : bname ≠ "")
    (hfind : (fs.branchesFile.getD []).find? (fun x => x.name == bname)
        = some b)
    (hhead : b.current_commit = ch.hash)
    (hne : ch.hash ≠ "")
    (hlog : fs.commitsFile = some (pre ++ ch :: post))
    (hlast : ∀ c ∈ post, c.hash ≠ ch.hash) :
    logModel fs limit (some bname) = applyLimit limit (ch :: post) := by
  have hrev : (pre ++ ch :: post).reverse = post.reverse ++ ch :: pre.reverse := by
    simp [List.reverse_append]
  have htake : takeUntilHash ch.hash ((pre ++ ch :: post).reverse)
      = post.reverse ++ [ch] := by
    rw [hrev]
    exact takeUntilHash_eq_append ch.hash post.reverse pre.reverse ch rfl
      (fun c hc => hlast c (List.mem_reverse.mp hc))
  have hcc : b.current_commit ≠ "" := by rw [hhead]; exact hne
  simp only [logModel, hlog, Option.getD_some, if_neg hname, hfind,
    if_pos hcc, hhead, htake]
  simp [List.reverse_append, hne]

/-- C3 witness: branch dev points at the middle of a three-commit log;
its log view is the two-element suffix from that commit. -/
theorem vc_log_branch_suffix_witness :
    logModel fsBranchLog 0 (some "dev") = [mkCommit "h2", mkCommit "h3"] := by
  have h := vc_log_branch_suffix fsBranchLog "dev" (devBranchAt "h2")
    [mkCommit "h1"] [mkCommit "h3"] (mkCommit "h2") 0
    (by decide) (by decide) rfl (by decide) rfl (by decide)
  exact h

/-- C3 counterexample: branch dev points at the first of two log entries;
the claim prescribes the prefix up to the head, the single element with
hash h1, but log returns both entries, the suffix from the head. -/
theorem vc_log_branch_cx :
    logModel fsBranchLogRoot 10 (some "dev")
      = [mkCommit "h1", mkCommit "h2"]
    ∧ logModel fsBranchLogRoot 10 (some "dev") ≠ [mkCommit "h1"] := by decide

/-- C2 (amended): the shared resolution loop of checkout, tag, show and
diff returns the FIRST commit in log order whose hash has the reference
as a prefix (or equals it); each of the four operations fails with its
Commit-not-found error exactly when no commit in the log matches.  An
ambiguous prefix therefore resolves to the earliest matching commit
instead of failing (see the counterexample). -/
theorem vc_resolve_first_match (fs : StoreFS) (ref tagName msg now : String)
    (r2 : Option String) (H : String → String) (snapCur : Snapshot)
    (nh ni : String) (flags : FailFlags) (oc : CheckoutOracles)
    (hflc : flags.loadCommits = false) :
    (resolveCommit (fs.commitsFile.getD []) ref = none ↔
      ∀ c ∈ fs.commitsFile.getD [],
        ¬(ref.data.isPrefixOf c.hash.data = true ∨ c.hash = ref))
    ∧ (∀ c, resolveCommit (fs.commitsFile.getD []) ref = some c →
        c ∈ fs.commitsFile.getD []
        ∧ (ref.data.isPrefixOf c.hash.data = true ∨ c.hash = ref))
    ∧ ((tagModel fs ref tagName msg now).success = false ↔
        resolveCommit (fs.commitsFile.getD []) ref = none)
    ∧ ((showModel fs ref).1 = false ↔
        resolveCommit (fs.commitsFile.getD []) ref = none)
    ∧ (((diffModel fs ref r2).1 = false
          ∧ (diffModel fs ref r2).2 = "First commit not found") ↔
        resolveCommit (fs.commitsFile.getD []) ref = none)
    ∧ (((checkoutModel H snapCur nh ni flags oc fs ref).success = false
          ∧ (checkoutModel H snapCur nh ni flags oc fs ref).message
              = "Commit not found") ↔
        resolveCommit (fs.commitsFile.getD []) ref = none) := by
  refine ⟨?_, ?_, ?_, ?_, ?_, ?_⟩
  · rw [resolveCommit, List.find?_eq_none]
    constructor
    · intro h c hc
      simpa [Bool.or_eq_true, beq_iff_eq] using h c hc
    · intro h c hc
      simpa [Bool.or_eq_true, beq_iff_eq] using h c hc
  · intro c hr
    refine ⟨List.mem_of_find?_eq_some hr, ?_⟩
    have hp := List.find?_some hr
    simpa [Bool.or_eq_true, beq_iff_eq] using hp
  · cases hr : resolveCommit (fs.commitsFile.getD []) ref <;>
      simp [tagModel, hr]
  · cases hr : resolveCommit (fs.commitsFile.getD []) ref <;>
      simp [showModel, hr]
  · cases hr : resolveCommit (fs.commitsFile.getD []) ref
    · simp [diffModel, hr]
    · rcases r2 with _ | s
      · simp [diffModel, hr]
      · by_cases hs : s = ""
        · simp [diffModel, hr, hs]
        · cases hr2 : resolveCommit (fs.commitsFile.getD []) s <;>
            simp [diffModel, hr, hs, hr2]
  · cases hr : resolveCommit (fs.commitsFile.getD []) ref
    · simp [checkoutModel, hflc, hr]
    · cases ha : oc.applyFails <;> cases hv : oc.validateOK <;>
        simp [checkoutModel, hflc, hr, ha, hv]

/-- C2 witness: an unmatched reference makes tag fail with the
not-found outcome, through the resolution characterization. -/
theorem vc_resolve_first_match_witness :
    (tagModel fsAmbiguous "zz" "v1" "" "t9").success = false := by
  have h := vc_resolve_first_match fsAmbiguous "zz" "v1" "" "t9" none id
    emptyBaseline "a" "b" noFail { applyFails := false, validateOK := true }
    rfl
  exact h.2.2.1.mpr (by decide)

/-- C2 counterexample: the reference a is a prefix of both hashes ab and
ac in the log — an ambiguous prefix — yet tag succeeds, resolving to the
first match, instead of failing with NotFound as the claim requires. -/
theorem vc_ambiguous_ref_first_match :
    "a".data.isPrefixOf "ab".data = true
    ∧ "a".data.isPrefixOf "ac".data = true
    ∧ mkCommit "ab" ∈ fsAmbiguous.commitsFile.getD []
    ∧ mkCommit "ac" ∈ fsAmbiguous.commitsFile.getD []
    ∧ resolveCommit (fsAmbiguous.commitsFile.getD []) "a"
        = some (mkCommit "ab")
    ∧ (tagModel fsAmbiguous "a" "v1" "" "t9").success = true := by decide

/-- C10: in branch switch to an existing branch with a non-empty recorded
head, HEAD is written before the checkout of that head commit is
attempted: whatever the checkout outcome, the resulting HEAD file names
the target branch, and when the checkout step fails (here: failing
post-restore validation) the operation reports failure while HEAD keeps
pointing at the new branch — the HEAD write is not rolled back. -/
theorem vc_branch_switch_head_not_rolled_back (H : String → String)
    (snapCur : Snapshot) (nh ni : String) (flags : FailFlags)
    (oc : CheckoutOracles) (fs : StoreFS) (name : String) (tb : Branch)
    (hname : name ≠ "")
    (hfind : (if flags.loadBranches then [] else fs.branchesFile.getD []).find?
        (fun b => b.name == name) = some tb)
    (hcc : tb.current_commit ≠ "")
    (hval : oc.validateOK = false) :
    (branchSwitch H snapCur nh ni flags oc fs name).success = false
    ∧ (branchSwitch H snapCur nh ni flags oc fs name).fs.headFile
        = some name := by
  have hfail := checkoutModel_fail_of_validate H snapCur nh ni flags oc
    { fs with headFile := some name } tb.current_commit hval
  have hhead := checkoutModel_headFile H snapCur nh ni flags oc
    { fs with headFile := some name } tb.current_commit
  simp only [branchSwitch, if_neg hname, hfind, if_pos hcc]
  rw [if_pos hfail]
  exact ⟨rfl, hhead⟩

/-- C10 witness: switching to dev with failing validation reports failure
and leaves HEAD at dev. -/
theorem vc_branch_switch_head_not_rolled_back_witness :
    (branchSwitch id snapA "t5" "i5" noFail
        { applyFails := false, validateOK := false } fsBranchLog "dev").success
      = false
    ∧ (branchSwitch id snapA "t5" "i5" noFail
        { applyFails := false, validateOK := false } fsBranchLog "dev").fs.headFile
      = some "dev" := by
  have h := vc_branch_switch_head_not_rolled_back id snapA "t5" "i5" noFail
    { applyFails := false, validateOK := false } fsBranchLog "dev"
    (devBranchAt "h2") (by decide) (by decide) (by decide) rfl
  exact h

/-- C4 (amended): the stats stored in a new commit are computed by diffing
the freshly captured snapshot against the stored snapshot of the LAST
COMMIT OF THE GLOBAL LOG — not the current branch head — and against the
empty baseline exactly when the global log is empty. -/
theorem vc_commit_stats_log_tail (H : String → String) (snap : Snapshot)
    (nh ni m d a : String) (t : Option (List String)) (fs : StoreFS) :
    (commitModel H snap nh ni m d a t noFail fs).newCommit.map
        (fun c => c.stats)
      = some (calculateDiff
          ((((fs.commitsFile.getD []).getLast?).map
              (fun c => c.domains_snapshot)).getD emptyBaseline)
          snap) := by
  simp [commitModel, noFail]

/-- A commit whose stored snapshot is `snapA`. -/
def commitOfSnapA : Commit :=
  { (mkCommit "h1") with
    domains_snapshot := snapA,
    config_snapshot := some "cfg" }

/-- A store where the checked-out branch dev has an empty head while the
global log already holds one commit of snapshot `snapA`. -/
def fsDevNoHead : StoreFS :=
  { commitsFile := some [commitOfSnapA],
    branchesFile := some [{ (mainBranch "t0") with current_commit := "h1" },
      devBranchAt ""],
    headFile := some "dev", commitObjs := [], archives := [],
    tagsDir := [] }

/-- C4 counterexample: the current branch dev has no head commit, so the
claim prescribes the empty baseline; but committing the unchanged
snapshot stores all-zero stats, because the code diffs against the global
log tail (whose snapshot equals the captured one), and the empty-baseline
diff is not all-zero. -/
theorem vc_commit_stats_ignores_branch_head :
    ((fsDevNoHead.branchesFile.getD []).find?
        (fun b => b.name == fsDevNoHead.headFile.getD "main")).map
        (fun b => b.current_commit) = some ""
    ∧ (commitModel id snapA "t2" "i2" "m" "" "admin" none noFail
        fsDevNoHead).newCommit.map (fun c => c.stats) = some zeroStats
    ∧ calculateDiff emptyBaseline snapA ≠ zeroStats := by decide

/-- C5 (amended): the commit hash is the hash function applied to the
serialized snapshot concatenated with the clock string, so two commit
invocations of byte-identical snapshots receive distinct hashes whenever
their creation-instant strings differ and the hash function does not
collide on the two inputs (injectivity); with identical clock strings the
hashes coincide (see the counterexample). -/
theorem vc_commit_hash_distinct (H : String → String)
    (hH : Function.Injective H) (snap : Snapshot)
    (n1 n2 i1 i2 m1 d1 a1 m2 d2 a2 : String)
    (t1 t2 : Option (List String)) (fs1 fs2 : StoreFS) (hne : n1 ≠ n2) :
    (commitModel H snap n1 i1 m1 d1 a1 t1 noFail fs1).newCommit.map
        (fun c => c.hash)
      ≠ (commitModel H snap n2 i2 m2 d2 a2 t2 noFail fs2).newCommit.map
          (fun c => c.hash)
    ∧ (commitModel H snap n1 i1 m1 d1 a1 t1 noFail fs1).newCommit ≠ none := by
  constructor
  · simp only [commitModel, noFail]
    simp only [Bool.false_eq_true, if_false, Option.map_some]
    intro h
    have h2 : H (serializeState snap ++ n1) = H (serializeState snap ++ n2) := by
      simpa using h
    exact hne (string_append_cancel_left _ _ _ (hH h2))
  · simp [commitModel, noFail]

/-- C5 witness: with the identity as an injective stand-in hash and two
different clock strings, the two commit hashes differ. -/
theorem vc_commit_hash_distinct_witness :
    (commitModel id snapA "ta" "i1" "m" "" "admin" none noFail
        fsInit).newCommit.map (fun c => c.hash)
      ≠ (commitModel id snapA "tb" "i2" "m" "" "admin" none noFail
          fsInit).newCommit.map (fun c => c.hash) :=
  (vc_commit_hash_distinct id (fun _ _ h => h) snapA "ta" "tb" "i1" "i2"
    "m" "" "admin" "m" "" "admin" none none fsInit fsInit (by decide)).1

/-- C5 counterexample: two distinct sequential commit invocations (the
second runs on the store left by the first, with a different message, so
the created commits differ) whose snapshot and clock string coincide
produce EQUAL hashes, refuting pairwise distinctness. -/
theorem vc_commit_hash_same_instant_collision :
    (commitModel id snapA "t0" "i0" "first" "" "admin" none noFail
        fsInit).newCommit
      ≠ (commitModel id snapA "t0" "i0" "second" "" "admin" none noFail
          (commitModel id snapA "t0" "i0" "first" "" "admin" none noFail
            fsInit).fs).newCommit
    ∧ (commitModel id snapA "t0" "i0" "first" "" "admin" none noFail
        fsInit).newCommit.map (fun c => c.hash)
      = (commitModel id snapA "t0" "i0" "second" "" "admin" none noFail
          (commitModel id snapA "t0" "i0" "first" "" "admin" none noFail
            fsInit).fs).newCommit.map (fun c => c.hash) := by decide

/-- The run in which only the HEAD read of `_get_current_branch` fails
(raising into the outer handler of `commit`). -/
def flagsHeadReadFail : FailFlags :=
  { noFail with headRead := true }

/-- The HEAD read of `_get_current_branch` has no internal handler and
runs after the log append: a run failing there reports failure with the
persisted log already extended, while the branch registry is untouched.
The persisted-log content of a failing call is therefore not always the
old one; only the branch registry is. -/
theorem commitModel_headRead_fail_after_append :
    (commitModel id snapA "t0" "i0" "m" "" "admin" none flagsHeadReadFail
        fsInit).success = false
    ∧ (commitModel id snapA "t0" "i0" "m" "" "admin" none flagsHeadReadFail
        fsInit).fs.commitsFile ≠ fsInit.commitsFile
    ∧ (commitModel id snapA "t0" "i0" "m" "" "admin" none flagsHeadReadFail
        fsInit).fs.branchesFile = fsInit.branchesFile := by decide

/-- C1 (amended): provided the internal reads and writes of the commit
log and branch registry succeed (the load and save flags are off) and the
current branch exists in the registry, every successful commit leaves the
new commit as the last element of the persisted log with the branch head
equal to its hash; and every failing call leaves the branch registry
unchanged — the head update is attempted only after the log append, so no
failing call leaves the branch head pointing at the new hash.  (A failure
AFTER the append, such as the unguarded HEAD read raising, can leave the
log already extended — see `commitModel_headRead_fail_after_append` — but
never the head repointed.)  When the log write fails internally, however,
the error is swallowed and the head is still updated on a run that
reports success (see the counterexample). -/
theorem vc_commit_head_consistency (H : String → String) (snap : Snapshot)
    (nh ni m d a : String) (t : Option (List String)) (flags : FailFlags)
    (fs : StoreFS)
    (hlc : flags.loadCommits = false) (hsc : flags.saveCommits = false)
    (hlb : flags.loadBranches = false) (hsb : flags.saveBranches = false)
    (hbr : ((fs.branchesFile.getD []).find?
        (fun b => b.name == fs.headFile.getD "main")).isSome = true) :
    ((commitModel H snap nh ni m d a t flags fs).success = true →
      (commitModel H snap nh ni m d a t flags fs).newCommit ≠ none
      ∧ ((commitModel H snap nh ni m d a t flags fs).fs.commitsFile.getD
            []).getLast?
          = (commitModel H snap nh ni m d a t flags fs).newCommit
      ∧ (((commitModel H snap nh ni m d a t flags fs).fs.branchesFile.getD
            []).find? (fun b => b.name == fs.headFile.getD "main")).map
            (fun b => b.current_commit)
          = (commitModel H snap nh ni m d a t flags fs).newCommit.map
              (fun c => c.hash))
    ∧ ((commitModel H snap nh ni m d a t flags fs).success = false →
        (commitModel H snap nh ni m d a t flags fs).fs.branchesFile
            = fs.branchesFile) := by
  simp only [commitModel, hlc, hsc, hlb, hsb]
  cases hfc : flags.capture
  · cases hff : flags.commitFile
    · cases hfa : flags.archive
      · cases hfh : flags.headRead
        · simp only [Bool.false_eq_true, if_false]
          refine ⟨fun _ => ⟨by simp, by simp [List.getLast?_concat], ?_⟩,
            fun hcontra => by simp at hcontra⟩
          exact find?_updateBranchHead (fs.branchesFile.getD [])
            (fs.headFile.getD "main") (H (serializeState snap ++ nh)) hbr
        · simp
      · simp
    · simp
  · simp

/-- C1 witness: a fully successful commit on a fresh store ends with the
new commit as last log element and as the main head. -/
theorem vc_commit_head_consistency_witness :
    ((commitModel id snapA "t0" "i0" "m" "" "admin" none noFail
        fsInit).fs.commitsFile.getD []).getLast?
      = (commitModel id snapA "t0" "i0" "m" "" "admin" none noFail
          fsInit).newCommit
    ∧ (((commitModel id snapA "t0" "i0" "m" "" "admin" none noFail
          fsInit).fs.branchesFile.getD []).find?
          (fun b => b.name == fsInit.headFile.getD "main")).map
          (fun b => b.current_commit)
      = (commitModel id snapA "t0" "i0" "m" "" "admin" none noFail
          fsInit).newCommit.map (fun c => c.hash) := by
  have h := (vc_commit_head_consistency id snapA "t0" "i0" "m" "" "admin"
    none noFail fsInit rfl rfl rfl rfl (by decide)).1 (by decide)
  exact ⟨h.2.1, h.2.2⟩

/-- The run in which only the commits.json write fails (and is swallowed
by `_save_commits`). -/
def flagsSaveCommitsFail : FailFlags :=
  { noFail with saveCommits := true }

/-- C1 counterexample: when the commits.json write fails, the exception is
swallowed, commit still reports success, the persisted log stays empty,
and the branch head is nevertheless updated to the new (non-empty) hash,
which the persisted commit log does not contain. -/
theorem vc_commit_swallowed_save_dangling_head :
    (commitModel id snapA "t0" "i0" "m" "" "admin" none
        flagsSaveCommitsFail fsInit).success = true
    ∧ (commitModel id snapA "t0" "i0" "m" "" "admin" none
        flagsSaveCommitsFail fsInit).fs.commitsFile = some []
    ∧ (((commitModel id snapA "t0" "i0" "m" "" "admin" none
          flagsSaveCommitsFail fsInit).fs.branchesFile.getD []).find?
          (fun b => b.name == "main")).map (fun b => b.current_commit)
      = (commitModel id snapA "t0" "i0" "m" "" "admin" none
          flagsSaveCommitsFail fsInit).newCommit.map (fun c => c.hash)
    ∧ (commitModel id snapA "t0" "i0" "m" "" "admin" none
        flagsSaveCommitsFail fsInit).newCommit.map (fun c => c.hash)
      ≠ some "" := by decide
